import Mathlib

/-!
Shallow embedding of the meta-learning strategy-selection core:
`StrategySelector` (selection, confidence-gated execution, feedback-driven
weight learning) from `src/meta_controller/strategy_selector.py`, the
`RuleEngine` safety layer from `src/learners/rule_engine.py`, and the
retrieval cascade of `RetrievalEngine.predict` from
`src/learners/retrieval_engine.py`.  Confidences, weights and scores are
rationals; Python dictionaries become functions or association lists; the
external similarity index and web providers become oracle parameters;
raising a Python exception becomes an `Except.error` value.
-/

namespace MetaSpec

/-- Lowercase a single character, as Python `str.lower` does on ASCII. -/
def lowerChar (c : Char) : Char := c.toLower

/-- Python `str.lower()`. -/
def lowerStr (s : String) : String := ⟨s.data.map lowerChar⟩

/-- Python `str.strip()`: drop leading and trailing whitespace. -/
def trimStr (s : String) : String :=
  ⟨((s.data.dropWhile Char.isWhitespace).reverse.dropWhile Char.isWhitespace).reverse⟩

/-- Whether `pat` is a prefix of `l` (character lists). -/
def startsWithL : List Char → List Char → Bool
  | [], _ => true
  | _ :: _, [] => false
  | a :: as, b :: bs => a = b && startsWithL as bs

/-- Whether `needle` occurs contiguously inside `hay` (character lists):
Python's `needle in hay` on strings. -/
def containsL (needle : List Char) : List Char → Bool
  | [] => startsWithL needle []
  | c :: rest => startsWithL needle (c :: rest) || containsL needle rest

/-- Python `needle in hay` for strings. -/
def strContains (hay needle : String) : Bool := containsL needle.data hay.data

/-- Whether the regex `a.*b` matches somewhere in `hay` (`re.search`):
an occurrence of `a` followed, at or after its end, by an occurrence of `b`. -/
def searchSeq (a b : List Char) : List Char → Bool
  | [] => startsWithL a [] && containsL b []
  | c :: rest =>
      (startsWithL a (c :: rest) && containsL b ((c :: rest).drop a.length))
        || searchSeq a b rest

/-- The four learning strategies registered in `StrategySelector.strategies`. -/
inductive Strategy
  | ruleBased
  | retrieval
  | classicalML
  | transformer
  deriving DecidableEq, Repr

/-- The dictionary key used for each strategy in the Python source. -/
def strategyName : Strategy → String
  | .ruleBased => "Rule-Based"
  | .retrieval => "Retrieval"
  | .classicalML => "Classical ML"
  | .transformer => "Transformer"

/-- Insertion order of the `strategies` / `strategy_weights` dictionaries. -/
def strategyOrder : List Strategy :=
  [.ruleBased, .retrieval, .classicalML, .transformer]

/-- Dictionary lookup `self.strategies[strategy_name]`: `none` models the
`KeyError` raised on an unregistered name. -/
def lookupStrategy (name : String) : Option Strategy :=
  if name = "Rule-Based" then some .ruleBased
  else if name = "Retrieval" then some .retrieval
  else if name = "Classical ML" then some .classicalML
  else if name = "Transformer" then some .transformer
  else none

/-- The feature record produced by the input analyzer, as consumed by
`StrategySelector` through `features.get(...)`; `none` models a missing key. -/
structure Features where
  intent : Option String
  query : Option String
  is_rule_violation : Option Bool
  complexity : Option String
  has_number : Option Bool
  deriving DecidableEq, Repr

/-- The `(answer, confidence, rationale)` triple every strategy's `predict`
returns. -/
structure PredResult where
  answer : String
  conf : ℚ
  reason : String
  deriving DecidableEq, Repr

/-- The `CAPABILITY_MATRIX` of `StrategySelector`, with its outer
`.get(intent, CAPABILITY_MATRIX['general'])` fallback. -/
def CAPABILITY_MATRIX (intent : String) : Strategy → ℚ :=
  if intent = "rule_violation" then
    fun s => match s with
      | .ruleBased => 10 | .retrieval => 0 | .classicalML => 0 | .transformer => 0
  else if intent = "calculation" then
    fun s => match s with
      | .ruleBased => 1 | .retrieval => 0.5 | .classicalML => 8 | .transformer => 2
  else if intent = "factual" then
    fun s => match s with
      | .ruleBased => 2 | .retrieval => 8 | .classicalML => 2 | .transformer => 3
  else if intent = "explanation" then
    fun s => match s with
      | .ruleBased => 0.5 | .retrieval => 4 | .classicalML => 1 | .transformer => 7
  else if intent = "reason" then
    fun s => match s with
      | .ruleBased => 0 | .retrieval => 3 | .classicalML => 1 | .transformer => 7
  else
    fun s => match s with
      | .ruleBased => 1 | .retrieval => 2 | .classicalML => 3 | .transformer => 6

/-- The `factual_indicators` keyword list of `select_strategy`. -/
def factual_indicators : List String :=
  ["prime minister", "chief minister", "president", "governor",
   "limit", "minimum", "maximum"]

/-- One strategy's `final_utility` in `select_strategy`'s scoring loop:
base score (with the Transformer guard), meta-learning weight, and the
dynamic heuristic bonuses. -/
def strategyScore (weights : Strategy → ℚ) (intent complexity : String)
    (hasNumber : Bool) (s : Strategy) : ℚ :=
  let base0 := CAPABILITY_MATRIX intent s
  let base :=
    if s = .transformer
        && !(intent = "explanation" || intent = "reason" || intent = "general")
    then (0.1 : ℚ) else base0
  let learned := weights s * 4
  let bonus1 : ℚ :=
    if complexity = "high" && s = .transformer then 3
    else if complexity = "low"
        && (s = .ruleBased || s = .classicalML || s = .retrieval) then 2
    else 0
  let bonus2 : ℚ := if hasNumber && s = .classicalML then 2 else 0
  base * learned + (bonus1 + bonus2)

/-- Tail of Python's `max(scores, key=scores.get)` over insertion order:
keeps the current best, replacing it only on a strictly larger value. -/
def argmaxGo (bs : Strategy) (bv : ℚ) : List (Strategy × ℚ) → Strategy
  | [] => bs
  | (s, v) :: rest => if bv < v then argmaxGo s v rest else argmaxGo bs bv rest

/-- Python's `max(scores, key=scores.get)` on a nonempty association list:
the first key attaining the maximal value. -/
def argmaxFirst : List (Strategy × ℚ) → Strategy
  | [] => .ruleBased
  | (s, v) :: rest => argmaxGo s v rest

/-- `StrategySelector.select_strategy`: hard safety check, universal factual
locking, then the explainable scoring loop. -/
def select_strategy (weights : Strategy → ℚ) (features : Features) : Strategy :=
  if features.is_rule_violation.getD false then .ruleBased
  else
    let intent := features.intent.getD "general"
    let query_text := lowerStr (features.query.getD "")
    if intent = "factual"
        || factual_indicators.any (fun kw => strContains query_text kw) then
      .retrieval
    else
      let complexity := features.complexity.getD "low"
      argmaxFirst (strategyOrder.map (fun s =>
        (s, strategyScore weights intent complexity
              (features.has_number.getD false) s)))

/-- The mutable state of `StrategySelector`: the meta-learning weights and
the per-strategy success counters. -/
structure SelectorState where
  weights : Strategy → ℚ
  success : Strategy → ℕ
  total : Strategy → ℕ

/-- The constructor state: every weight `1.0`, every counter `0`. -/
def initState : SelectorState :=
  ⟨fun _ => 1, fun _ => 0, fun _ => 0⟩

/-- The weights right after the multiplicative bump of `update_from_feedback`
(`*= 1.1` on success, `*= 0.9` on failure), before renormalization. -/
def bumpedW (st : SelectorState) (strategy : Strategy) (succ : Bool) :
    Strategy → ℚ :=
  fun s =>
    if s = strategy then st.weights s * (if succ then (1.1 : ℚ) else 0.9)
    else st.weights s

/-- `StrategySelector.update_from_feedback`: bump the counters, multiply the
used strategy's weight, divide every weight by the new total. -/
def update_from_feedback (st : SelectorState) (strategy : Strategy)
    (succ : Bool) : SelectorState :=
  ⟨fun s =>
      bumpedW st strategy succ s
        / (strategyOrder.map (bumpedW st strategy succ)).sum,
   fun s => if s = strategy ∧ succ = true then st.success s + 1 else st.success s,
   fun s => if s = strategy then st.total s + 1 else st.total s⟩

/-- A whole sequence of feedback calls, applied left to right. -/
def applyFeedbacks (st : SelectorState) (fs : List (Strategy × Bool)) :
    SelectorState :=
  fs.foldl (fun s p => update_from_feedback s p.1 p.2) st

/-- Python `sum(self.strategy_weights.values())`. -/
def sumWeights (st : SelectorState) : ℚ :=
  (strategyOrder.map st.weights).sum

/-- `StrategySelector._get_success_rate`: `0.5` for an untested strategy,
else `success / total`. -/
def get_success_rate (st : SelectorState) (s : Strategy) : ℚ :=
  if st.total s = 0 then 0.5 else (st.success s : ℚ) / (st.total s : ℚ)

/-- One entry of the dictionary built by `get_strategy_stats`. -/
structure StratStats where
  weight : ℚ
  success_rate : ℚ
  total_uses : ℕ
  deriving DecidableEq, Repr

/-- `StrategySelector.get_strategy_stats`, per strategy. -/
def get_strategy_stats (st : SelectorState) (s : Strategy) : StratStats :=
  ⟨st.weights s, get_success_rate st s, st.total s⟩

/-- The behaviour of the four registered engines' `predict` methods, as the
executor consumes them through the strategy contract. -/
def Preds : Type := Strategy → String → Features → PredResult

/-- `self.confidence_threshold` of `StrategySelector`. -/
def confidence_threshold : ℚ := 0.35

/-- The fixed safe-refusal answer of `execute_strategy`. -/
def safeRefusal : String :=
  "I don’t have verified information for this query. Please refine the question or provide a trusted source."

/-- The `(answer, confidence, reason, strategy_used)` tuple
`execute_strategy` returns. -/
structure ExecOutcome where
  answer : String
  conf : ℚ
  reason : String
  strategyUsed : String
  deriving DecidableEq, Repr

/-- `StrategySelector.execute_strategy`.  The second component records, in
call order, the name of every strategy whose `predict` was invoked; the
`Except.error` case models the `KeyError` a lookup of an unregistered
strategy name raises. -/
def execute_strategy (preds : Preds) (strategy_name query : String)
    (features : Features) : Except String ExecOutcome × List String :=
  let r := preds .ruleBased query features
  if r.conf ≥ 0.9 then
    (.ok ⟨r.answer, r.conf, r.reason, "Rule-Based"⟩, ["Rule-Based"])
  else
    let intent := features.intent.getD "general"
    match lookupStrategy strategy_name with
    | none => (.error ("KeyError: " ++ strategy_name), ["Rule-Based"])
    | some strat =>
      let p0 := preds strat query features
      let p : PredResult :=
        if trimStr p0.answer = "" then
          ⟨"", 0, "Empty response from " ++ strategy_name⟩
        else p0
      if p.conf < confidence_threshold then
        if intent = "factual" || strategy_name = "Transformer" then
          (.ok ⟨safeRefusal, 0, "Safe Failure: Confidence below threshold",
              strategy_name⟩,
           ["Rule-Based", strategy_name])
        else
          let fb := preds .transformer query features
          if fb.conf < 0.2 then
            (.ok ⟨safeRefusal, 0,
                "Safe Failure: High Hallucination Risk (" ++ fb.reason ++ ")",
                "Transformer"⟩,
             ["Rule-Based", strategy_name, "Transformer"])
          else
            (.ok ⟨fb.answer, fb.conf, fb.reason, "Transformer"⟩,
             ["Rule-Based", strategy_name, "Transformer"])
      else (.ok ⟨p.answer, p.conf, p.reason, strategy_name⟩,
            ["Rule-Based", strategy_name])

/-- Python `str.title()` on the lowercase state names: uppercase the first
letter of every alphabetic run. -/
def titleGo : Bool → List Char → List Char
  | _, [] => []
  | prevAlpha, c :: rest =>
      (if c.isAlpha then (if prevAlpha then c.toLower else c.toUpper) else c)
        :: titleGo c.isAlpha rest

/-- Python `str.title()`. -/
def titleCase (s : String) : String := ⟨titleGo false s.data⟩

/-- A restricted pattern of `RuleEngine`: every entry of
`restricted_patterns` is either `a.*b` or a plain keyword. -/
inductive Pat
  | sequence (a b : String)
  | word (w : String)
  deriving DecidableEq, Repr

/-- `re.search(pattern, s)` for the two shapes of restricted pattern. -/
def patMatches (p : Pat) (s : String) : Bool :=
  match p with
  | .sequence a b => searchSeq a.data b.data s.data
  | .word w => strContains s w

/-- `RuleEngine.restricted_patterns`. -/
def restricted_patterns : List Pat :=
  [.sequence "predict" "mark", .sequence "predict" "score",
   .sequence "how" "hack", .sequence "bypass" "security",
   .sequence "cheat" "exam", .word "illegal"]

/-- `RuleEngine.static_rules`, in the dictionary's insertion order. -/
def static_rules : List (String × String) :=
  [("what is meta-learning", "Meta-learning is the process of \x27learning how to learn\x27, where an AI system automatically selects the best learning strategy for a given task."),
   ("who created you", "I am a Meta-Learning AI System developed as a project demonstration."),
   ("help", "I can answer questions using different strategies: Rule-based, Retrieval, Classical ML, or Transformers. Try verifying different types of queries!"),
   ("version", "System Version 1.0.0 (Production Ready)"),
   ("minimum attendance", "The minimum attendance requirement is 75% for students and 3 hours per week for project participants."),
   ("minimum age", "The minimum age requirement for participation is 16 years of age or older."),
   ("attendance requirement", "Attendance is mandatory at 75% threshold with a minimum of 3 active hours per week."),
   ("perform calculations", "The system supports simple arithmetic operations (+, -, *, /) through its Classical ML engine. It does not support complex calculus or advanced statistical modeling currently."),
   ("what calculations", "I can help with basic addition, subtraction, multiplication, and division."),
   ("how do you learn", "I learn by selecting the best strategy for your question and improving my strategy weights based on your \x27Helpful\x27 feedback.")]

/-- The Indian state list of `RuleEngine._is_invalid_role_query`. -/
def indian_states : List String :=
  ["andhra pradesh", "arunachal pradesh", "assam", "bihar", "chhattisgarh",
   "goa", "gujarat", "haryana", "himachal pradesh", "jharkhand", "karnataka",
   "kerala", "madhya pradesh", "maharashtra", "manipur", "meghalaya", "mizoram",
   "nagaland", "odisha", "punjab", "rajasthan", "sikkim", "tamil nadu", "telangana",
   "tripura", "uttar pradesh", "uttarakhand", "west bengal"]

/-- The correction text for a Prime-Minister-of-a-state query. -/
def roleMsgPM (state : String) : String :=
  "In India, " ++ titleCase state
    ++ " is a state and has a Chief Minister, not a Prime Minister. Are you looking for the Chief Minister of "
    ++ titleCase state ++ "?"

/-- The correction text for a President-of-a-state query. -/
def roleMsgPres (state : String) : String :=
  "Individual states in India do not have their own Presidents. They are headed by Governors. Were you looking for the Governor of "
    ++ titleCase state ++ " or the President of India?"

/-- `RuleEngine._is_invalid_role_query`: the Prime-Minister check on the
first matching state, falling through to the President check. -/
def is_invalid_role_query (query : String) : Bool × String :=
  let ql := lowerStr query
  match
    (if strContains ql "prime minister" || strContains ql "pm of" then
      (indian_states.find? (fun st => strContains ql st)).map roleMsgPM
    else none) with
  | some m => (true, m)
  | none =>
    match
      (if strContains ql "president" then
        (indian_states.find? (fun st => strContains ql st)).map roleMsgPres
      else none) with
    | some m => (true, m)
    | none => (false, "")

/-- The fixed safety-refusal text of `RuleEngine.predict`. -/
def restrictedMessage : String :=
  "I cannot fulfill this request. My safety protocols prevent me from answering queries related to predictions of personal scores, hacking, or unethical activities."

/-- `RuleEngine.predict`: role-entity validation, then restricted patterns,
then static FAQs, else no match. -/
def rule_predict (query : String) (_features : Features) : PredResult :=
  let ql := trimStr (lowerStr query)
  match is_invalid_role_query ql with
  | (true, correction) => ⟨correction, 1, "Role-Entity Mismatch Detected"⟩
  | (false, _) =>
    if restricted_patterns.any (fun p => patMatches p ql) then
      ⟨restrictedMessage, 1, "Safety Rule Violation Blocked"⟩
    else
      match static_rules.find? (fun kv => strContains ql kv.1) with
      | some kv => ⟨kv.2, 1, "Static Rule Match: \x27" ++ kv.1 ++ "\x27"⟩
      | none => ⟨"", 0, "No rule matched"⟩

/-- Whether `RuleEngine.predict` matches the (lowered, stripped) query on any
of its three layers: role-entity mismatch, restricted pattern, static FAQ. -/
def rule_matched (query : String) : Bool :=
  let ql := trimStr (lowerStr query)
  (is_invalid_role_query ql).1
    || restricted_patterns.any (fun p => patMatches p ql)
    || static_rules.any (fun kv => strContains ql kv.1)

/-- Render a nonnegative rational with two decimals, as Python's
`f"{x:.2f}"` does for the similarity score label. -/
def fmt2 (q : ℚ) : String :=
  let n := (q * 100 + 1 / 2).floor.toNat
  toString (n / 100) ++ "." ++ (if n % 100 < 10 then "0" else "") ++ toString (n % 100)

/-- A call the retrieval cascade makes to something outside the cache:
the local similarity search, or the web tier (`_fetch_from_web_apis`). -/
inductive RCall
  | search
  | web
  deriving DecidableEq, Repr

/-- The in-memory cache of `RetrievalEngine` (`self.cache`), newest entry
first; lookup sees the latest write, as a Python dict does. -/
structure RetState where
  cache : List (String × PredResult)
  deriving DecidableEq, Repr

/-- Python `self.cache.get`/`in` on the association-list cache. -/
def lookupCache : List (String × PredResult) → String → Option PredResult
  | [], _ => none
  | (k, v) :: rest, key => if k = key then some v else lookupCache rest key

/-- The local TF-IDF index: `none` when the knowledge base is empty
(`self.documents`/`self.vectorizer` falsy); otherwise a search returning the
best document and its cosine score, or `Except.error` for an exception the
vector search raises. -/
def LocalIndex : Type := Option (String → Except String (String × ℚ))

/-- `RetrievalEngine._fetch_from_web_apis`: an external collaborator that
always returns a triple (provider failures are absorbed inside it). -/
def WebFetch : Type := String → PredResult

/-- The web tier of `RetrievalEngine.predict`: fetch, cache the result only
when its confidence exceeds `0.1`, and return it. -/
def webTier (webFetch : WebFetch) (st : RetState) (query_norm : String)
    (tr : List RCall) : PredResult × RetState × List RCall :=
  let result := webFetch query_norm
  let cache' :=
    if result.conf > 0.1 then (query_norm, result) :: st.cache else st.cache
  (result, ⟨cache'⟩, tr ++ [.web])

/-- `RetrievalEngine.predict`: cache, then local similarity search (its
exceptions absorbed), then the web tier.  The third component records the
calls made past the cache. -/
def retrieval_predict (localIndex : LocalIndex) (webFetch : WebFetch)
    (st : RetState) (query : String) : PredResult × RetState × List RCall :=
  let query_norm := trimStr (lowerStr query)
  match lookupCache st.cache query_norm with
  | some r => (r, st, [])
  | none =>
    match localIndex with
    | some searchFn =>
      match searchFn query with
      | .ok (doc, score) =>
        if score > 0.4 then
          let result : PredResult :=
            ⟨doc, score, "Local KB (Similarity: " ++ fmt2 score ++ ")"⟩
          (result, ⟨(query_norm, result) :: st.cache⟩, [.search])
        else webTier webFetch st query_norm [.search]
      | .error _ => webTier webFetch st query_norm [.search]
    | none => webTier webFetch st query_norm []

/-! Helper lemmas about the weight-learning state. -/

/-- All strategy weights are strictly positive. -/
def posWeights (st : SelectorState) : Prop := ∀ s, 0 < st.weights s

theorem posWeights_init : posWeights initState := by
  intro s; simp [initState]

theorem bumpFactor_pos (b : Bool) : 0 < (if b then (1.1 : ℚ) else 0.9) := by
  cases b <;> norm_num

theorem bumpedW_pos {st : SelectorState} (h : posWeights st) (a : Strategy)
    (b : Bool) (s : Strategy) : 0 < bumpedW st a b s := by
  unfold bumpedW
  split
  · exact mul_pos (h s) (bumpFactor_pos b)
  · exact h s

theorem bumpedSum_pos {st : SelectorState} (h : posWeights st) (a : Strategy)
    (b : Bool) : 0 < (strategyOrder.map (bumpedW st a b)).sum := by
  have h1 := bumpedW_pos h a b .ruleBased
  have h2 := bumpedW_pos h a b .retrieval
  have h3 := bumpedW_pos h a b .classicalML
  have h4 := bumpedW_pos h a b .transformer
  simp only [strategyOrder, List.map_cons, List.map_nil, List.sum_cons,
    List.sum_nil, add_zero]
  positivity

theorem posWeights_update {st : SelectorState} (h : posWeights st)
    (a : Strategy) (b : Bool) : posWeights (update_from_feedback st a b) := by
  intro s
  have := bumpedSum_pos h a b
  simp only [update_from_feedback]
  exact div_pos (bumpedW_pos h a b s) this

theorem sumWeights_update {st : SelectorState} (h : posWeights st)
    (a : Strategy) (b : Bool) : sumWeights (update_from_feedback st a b) = 1 := by
  have hpos := bumpedSum_pos h a b
  have hne : (strategyOrder.map (bumpedW st a b)).sum ≠ 0 := ne_of_gt hpos
  simp only [sumWeights, update_from_feedback, strategyOrder, List.map_cons,
    List.map_nil, List.sum_cons, List.sum_nil, add_zero] at hne ⊢
  field_simp

theorem applyFeedbacks_append (st : SelectorState)
    (l1 l2 : List (Strategy × Bool)) :
    applyFeedbacks st (l1 ++ l2) = applyFeedbacks (applyFeedbacks st l1) l2 := by
  simp [applyFeedbacks, List.foldl_append]

theorem posWeights_applyFeedbacks {st : SelectorState} (h : posWeights st) :
    ∀ fs : List (Strategy × Bool), posWeights (applyFeedbacks st fs) := by
  intro fs
  induction fs generalizing st with
  | nil => exact h
  | cons p rest ih => exact ih (posWeights_update h p.1 p.2)

/-- C3.  For every sequence of `update_from_feedback` calls, after each call
the strategy weights sum to exactly `1` (the rational embedding is exact, so
"within floating tolerance" holds a fortiori): any prefix that ends at a call
is some `fs ++ [p]`. -/
theorem C3_weights_sum_one (fs : List (Strategy × Bool)) (p : Strategy × Bool) :
    sumWeights (applyFeedbacks initState (fs ++ [p])) = 1 := by
  rw [applyFeedbacks_append]
  exact sumWeights_update (posWeights_applyFeedbacks posWeights_init fs) p.1 p.2

/-- C10.  A strategy with zero recorded feedback events gets the untested
default success rate `0.5` from `_get_success_rate`, and `get_strategy_stats`
reports exactly that (no division takes place). -/
theorem C10_untested_default_rate (st : SelectorState) (s : Strategy)
    (h : st.total s = 0) :
    get_success_rate st s = 0.5 ∧ (get_strategy_stats st s).success_rate = 0.5 := by
  refine ⟨?_, ?_⟩ <;> simp [get_success_rate, get_strategy_stats, h]

/-- Witness for C10 at the constructor state. -/
theorem C10_witness :
    get_success_rate initState Strategy.transformer = 0.5 ∧
      (get_strategy_stats initState Strategy.transformer).success_rate = 0.5 :=
  C10_untested_default_rate initState Strategy.transformer rfl

/-- C1 fails as stated: a feature record with `intent = factual` but
`is_rule_violation = true` is routed to `Rule-Based` by the hard safety check,
which runs before the factual lock, so `select` does not return `Retrieval`. -/
theorem C1_counterexample :
    select_strategy initState.weights
        ⟨some "factual", none, some true, none, none⟩ = Strategy.ruleBased ∧
      select_strategy initState.weights
        ⟨some "factual", none, some true, none, none⟩ ≠ Strategy.retrieval := by
  refine ⟨by decide, by decide⟩

/-- C1 amended.  For every feature record with `intent = factual` and
`is_rule_violation` falsy, `select_strategy` returns `Retrieval`, for every
weight assignment and regardless of all other feature fields. -/
theorem C1_factual_routes_to_retrieval (w : Strategy → ℚ) (f : Features)
    (hrv : f.is_rule_violation.getD false = false)
    (hint : f.intent = some "factual") :
    select_strategy w f = Strategy.retrieval := by
  simp [select_strategy, hrv, hint]

/-- Witness for the amended C1 at a concrete factual record. -/
theorem C1_witness :
    select_strategy initState.weights
      ⟨some "factual", some "", some false, some "low", some false⟩ =
        Strategy.retrieval :=
  C1_factual_routes_to_retrieval _ _ rfl rfl

/-- `RuleEngine.predict` reports confidence exactly `1` on any match. -/
theorem rule_predict_conf_matched (q : String) (f : Features)
    (h : rule_matched q = true) : (rule_predict q f).conf = 1 := by
  simp only [rule_matched, Bool.or_eq_true] at h
  simp only [rule_predict]
  split
  · rfl
  · rename_i snd heq
    split
    · rfl
    · rename_i hnp
      split
      · rfl
      · rename_i hnone
        exfalso
        rcases h with (h1 | h2) | h3
        · rw [heq] at h1; simp at h1
        · exact hnp h2
        · rcases List.any_eq_true.mp h3 with ⟨kv, hmem, hkv⟩
          have := List.find?_eq_none.mp hnone kv hmem
          simp [hkv] at this

/-- C4.  `execute_strategy` always invokes `RuleBased.predict` first; whenever
that call reports confidence at least `0.9` the executor returns its result
unchanged with `strategyUsed = Rule-Based` and invokes no other strategy; and
`RuleEngine.predict` reports confidence exactly `1` on any role-entity,
restricted-pattern or static-FAQ match. -/
theorem C4_zero_latency_rule_guard (preds : Preds) (name query : String)
    (f : Features) :
    (execute_strategy preds name query f).2.head? = some "Rule-Based" ∧
      ((preds .ruleBased query f).conf ≥ 0.9 →
        execute_strategy preds name query f =
          (.ok ⟨(preds .ruleBased query f).answer, (preds .ruleBased query f).conf,
              (preds .ruleBased query f).reason, "Rule-Based"⟩,
           ["Rule-Based"])) ∧
      (∀ q2 f2, rule_matched q2 = true → (rule_predict q2 f2).conf = 1) := by
  refine ⟨?_, ?_, ?_⟩
  · simp only [execute_strategy]
    (repeat' split) <;> rfl
  · intro h
    simp only [execute_strategy]
    rw [if_pos h]
  · intro q2 f2 hm
    exact rule_predict_conf_matched q2 f2 hm

/-- C2.  When the rule guard does not fire and the primary strategy comes
back with confidence below `0.35`: for a factual intent or a Transformer
primary, the executor returns the fixed safe refusal with confidence `0` and
invokes nothing further; otherwise it invokes `Transformer.predict` exactly
once, reports `strategyUsed = Transformer`, and returns the safe refusal with
the high-hallucination-risk rationale when that fallback's confidence is
below `0.2`, else the fallback's own result. -/
theorem C2_low_confidence_policy (preds : Preds) (name query : String)
    (f : Features) (strat : Strategy)
    (hlk : lookupStrategy name = some strat)
    (hrg : (preds .ruleBased query f).conf < 0.9)
    (hpc : (preds strat query f).conf < 0.35) :
    ((f.intent.getD "general" = "factual" ∨ name = "Transformer") →
        execute_strategy preds name query f =
          (.ok ⟨safeRefusal, 0, "Safe Failure: Confidence below threshold", name⟩,
           ["Rule-Based", name])) ∧
      (¬(f.intent.getD "general" = "factual" ∨ name = "Transformer") →
        execute_strategy preds name query f =
          (if (preds .transformer query f).conf < 0.2 then
            (.ok ⟨safeRefusal, 0,
                "Safe Failure: High Hallucination Risk ("
                  ++ (preds .transformer query f).reason ++ ")", "Transformer"⟩,
             ["Rule-Based", name, "Transformer"])
          else
            (.ok ⟨(preds .transformer query f).answer,
                (preds .transformer query f).conf,
                (preds .transformer query f).reason, "Transformer"⟩,
             ["Rule-Based", name, "Transformer"]))) := by
  have hng : ¬ ((preds .ruleBased query f).conf ≥ 0.9) := not_le.mpr hrg
  have hp : (if trimStr (preds strat query f).answer = "" then
      (⟨"", 0, "Empty response from " ++ name⟩ : PredResult)
    else preds strat query f).conf < confidence_threshold := by
    split
    · norm_num [confidence_threshold]
    · exact hpc
  constructor
  · intro h
    simp only [execute_strategy, hlk]
    rw [if_neg hng, if_pos hp, if_pos (by simpa using h)]
  · intro h
    simp only [execute_strategy, hlk]
    rw [if_neg hng, if_pos hp, if_neg (by simpa using h)]

/-- Witness for C2 at a concrete strategy table: the primary (Retrieval)
answers with confidence `0.1`, the rule guard misses, and the Transformer
fallback answers with confidence `0.5`, which the executor returns. -/
theorem C2_witness :
    execute_strategy
        (fun s _ _ =>
          if s = Strategy.transformer then ⟨"fallback answer", 0.5, "generated"⟩
          else if s = Strategy.retrieval then ⟨"weak answer", 0.1, "weak"⟩
          else ⟨"", 0, "No rule matched"⟩)
        "Retrieval" "query" ⟨some "general", none, none, none, none⟩ =
      (.ok ⟨"fallback answer", 0.5, "generated", "Transformer"⟩,
       ["Rule-Based", "Retrieval", "Transformer"]) := by
  have h := C2_low_confidence_policy
    (fun s _ _ =>
      if s = Strategy.transformer then ⟨"fallback answer", 0.5, "generated"⟩
      else if s = Strategy.retrieval then ⟨"weak answer", 0.1, "weak"⟩
      else ⟨"", 0, "No rule matched"⟩)
    "Retrieval" "query" ⟨some "general", none, none, none, none⟩
    Strategy.retrieval rfl (by simp; norm_num) (by simp; norm_num)
  rw [h.2 (by simp)]
  norm_num

/-- C5 fails as stated: called with the unregistered strategy name "Bogus"
and a query the rule guard misses, `execute_strategy` raises `KeyError` at
the `self.strategies[strategy_name]` lookup (modelled as `Except.error`)
instead of returning a result triple. -/
theorem C5_counterexample :
    execute_strategy
        (fun s q f =>
          if s = Strategy.ruleBased then rule_predict q f else ⟨"", 0, "x"⟩)
        "Bogus" "hello" ⟨none, none, none, none, none⟩ =
      (.error "KeyError: Bogus", ["Rule-Based"]) := by
  have h : (rule_predict "hello"
      (⟨none, none, none, none, none⟩ : Features)).conf = 0 := by decide
  simp [execute_strategy, lookupStrategy, h]
  norm_num

/-- C5 amended.  For every registered strategy name the executor returns a
result triple, never an error; and the retrieval cascade absorbs an
exception of the local similarity search at its origin, still returning the
web tier's triple. -/
theorem C5_no_uncaught_failures (preds : Preds) (name query : String)
    (f : Features) (strat : Strategy)
    (hlk : lookupStrategy name = some strat) :
    (∃ o : ExecOutcome, (execute_strategy preds name query f).1 = .ok o) ∧
      (∀ (searchFn : String → Except String (String × ℚ)) (wf : WebFetch)
          (st : RetState) (q e : String),
        lookupCache st.cache (trimStr (lowerStr q)) = none →
        searchFn q = .error e →
        retrieval_predict (some searchFn) wf st q =
          (wf (trimStr (lowerStr q)),
           ⟨if (wf (trimStr (lowerStr q))).conf > 0.1 then
              (trimStr (lowerStr q), wf (trimStr (lowerStr q))) :: st.cache
            else st.cache⟩,
           [.search, .web])) := by
  constructor
  · simp only [execute_strategy, hlk]
    (repeat' split) <;> exact ⟨_, rfl⟩
  · intro searchFn wf st q e hc hs
    simp only [retrieval_predict, hc, hs, webTier]
    rfl

/-- Witness for the amended C5, at a strategy table whose every predict
returns confidence `0` and an always-failing local search. -/
theorem C5_witness :
    (∃ o : ExecOutcome,
      (execute_strategy (fun _ _ _ => ⟨"", 0, "x"⟩) "Retrieval" "q"
        ⟨none, none, none, none, none⟩).1 = .ok o) ∧
      (∀ (searchFn : String → Except String (String × ℚ)) (wf : WebFetch)
          (st : RetState) (q e : String),
        lookupCache st.cache (trimStr (lowerStr q)) = none →
        searchFn q = .error e →
        retrieval_predict (some searchFn) wf st q =
          (wf (trimStr (lowerStr q)),
           ⟨if (wf (trimStr (lowerStr q))).conf > 0.1 then
              (trimStr (lowerStr q), wf (trimStr (lowerStr q))) :: st.cache
            else st.cache⟩,
           [.search, .web])) :=
  C5_no_uncaught_failures (fun _ _ _ => ⟨"", 0, "x"⟩) "Retrieval" "q"
    ⟨none, none, none, none, none⟩ Strategy.retrieval rfl

/-- The running maximum never lands on a key whose every listed value stays
strictly below the current best. -/
theorem argmaxGo_ne {t : Strategy} :
    ∀ (l : List (Strategy × ℚ)) (bs : Strategy) (bv : ℚ),
      bs ≠ t → (∀ p ∈ l, p.1 = t → p.2 < bv) → argmaxGo bs bv l ≠ t := by
  intro l
  induction l with
  | nil => intro bs bv hbs _; simpa [argmaxGo] using hbs
  | cons p rest ih =>
    intro bs bv hbs hl
    obtain ⟨s, v⟩ := p
    simp only [argmaxGo]
    split
    · rename_i hlt
      refine ih s v (fun hst => ?_) (fun p hp hpt => ?_)
      · exact lt_asymm hlt (hl (s, v) (List.mem_cons_self _ _) hst)
      · exact (hl p (List.mem_cons_of_mem _ hp) hpt).trans hlt
    · exact ih bs bv hbs (fun p hp hpt => hl p (List.mem_cons_of_mem _ hp) hpt)

/-- Every base score of the Rule-Based row of the capability matrix is
nonnegative. -/
theorem capability_ruleBased_nonneg (intent : String) :
    0 ≤ CAPABILITY_MATRIX intent Strategy.ruleBased := by
  unfold CAPABILITY_MATRIX
  (repeat' split) <;> norm_num

/-- C6 fails as stated: with intent `calculation` (outside the qualitative
set), no rule violation and no factual indicator, but complexity `high` and
a positive weight assignment favouring Transformer, the `+3.0` high
complexity bonus makes `select_strategy` return Transformer. -/
theorem C6_counterexample :
    select_strategy (fun s => if s = Strategy.transformer then 97/100 else 1/100)
        ⟨some "calculation", some "", some false, some "high", some false⟩ =
      Strategy.transformer := by
  simp [select_strategy, strategyScore, CAPABILITY_MATRIX, argmaxFirst, argmaxGo,
    strategyOrder, factual_indicators, strContains, containsL, startsWithL,
    lowerStr, lowerChar]
  norm_num

/-- C6 amended.  For intents outside `{explanation, reason, general}` the
Transformer base score is overridden to `0.1` (its utility is exactly
`0.1 * weight * 4`), and with complexity `low` and every weight positive and
at most `1` (as renormalization keeps them), `select_strategy` never returns
Transformer. -/
theorem C6_transformer_guard (w : Strategy → ℚ) (f : Features)
    (h1 : f.intent.getD "general" ≠ "explanation")
    (h2 : f.intent.getD "general" ≠ "reason")
    (h3 : f.intent.getD "general" ≠ "general")
    (hcompl : f.complexity.getD "low" = "low")
    (hw : ∀ s, 0 < w s ∧ w s ≤ 1) :
    strategyScore w (f.intent.getD "general") "low" (f.has_number.getD false)
        Strategy.transformer = 0.1 * (w Strategy.transformer * 4) ∧
      select_strategy w f ≠ Strategy.transformer := by
  have hS : strategyScore w (f.intent.getD "general") "low"
      (f.has_number.getD false) Strategy.transformer
        = 0.1 * (w Strategy.transformer * 4) := by
    simp [strategyScore, h1, h2, h3]
  have hSrb : 2 ≤ strategyScore w (f.intent.getD "general") "low"
      (f.has_number.getD false) Strategy.ruleBased := by
    have hb := capability_ruleBased_nonneg (f.intent.getD "general")
    have hwrb := (hw Strategy.ruleBased).1
    simp [strategyScore]
    nlinarith
  have hTlt : strategyScore w (f.intent.getD "general") "low"
      (f.has_number.getD false) Strategy.transformer
        < strategyScore w (f.intent.getD "general") "low"
            (f.has_number.getD false) Strategy.ruleBased := by
    rw [hS]
    have := (hw Strategy.transformer).2
    nlinarith
  refine ⟨hS, ?_⟩
  simp only [select_strategy]
  split
  · simp
  · split
    · simp
    · rw [hcompl]
      simp only [strategyOrder, List.map_cons, List.map_nil, argmaxFirst]
      refine argmaxGo_ne _ _ _ (by simp) ?_
      intro p hp hpt
      simp only [List.mem_cons, List.not_mem_nil, or_false] at hp
      rcases hp with rfl | rfl | rfl
      · simp at hpt
      · simp at hpt
      · exact hTlt

/-- Witness for the amended C6 at uniform quarter weights and intent
`calculation`. -/
theorem C6_witness :
    strategyScore (fun _ => 1/4) "calculation" "low" false Strategy.transformer
        = 0.1 * ((1/4 : ℚ) * 4) ∧
      select_strategy (fun _ => 1/4)
        ⟨some "calculation", some "", some false, some "low", some false⟩ ≠
          Strategy.transformer :=
  C6_transformer_guard (fun _ => 1/4)
    ⟨some "calculation", some "", some false, some "low", some false⟩
    (by decide) (by decide) (by decide) rfl
    (fun _ => ⟨by norm_num, by norm_num⟩)

theorem lookupCache_cons (k : String) (v : PredResult)
    (c : List (String × PredResult)) (key : String) :
    lookupCache ((k, v) :: c) key = if k = key then some v else lookupCache c key :=
  rfl

/-- The web tier caches its hit under the normalized query exactly when the
confidence exceeds `0.1`, and every fresh cache entry it writes has
confidence above `0.1`. -/
theorem webTier_parts (wf : WebFetch) (st : RetState) (norm : String)
    (tr : List RCall) :
    ((webTier wf st norm tr).1.conf > 0.1 →
      lookupCache (webTier wf st norm tr).2.1.cache norm
        = some (webTier wf st norm tr).1) ∧
    (∀ k r, lookupCache st.cache k = none →
      lookupCache (webTier wf st norm tr).2.1.cache k = some r →
        r.conf > 0.1) := by
  simp only [webTier]
  by_cases hc : (wf norm).conf > 0.1
  · rw [if_pos hc]
    constructor
    · intro _
      simp [lookupCache]
    · intro k r hk hr
      rw [lookupCache_cons] at hr
      by_cases hkn : norm = k
      · rw [if_pos hkn] at hr
        cases hr
        exact hc
      · rw [if_neg hkn, hk] at hr
        cases hr
  · rw [if_neg hc]
    constructor
    · intro h
      exact absurd h hc
    · intro k r hk hr
      rw [hk] at hr
      cases hr

/-- After any `RetrievalEngine.predict` call: a result of confidence above
`0.1` is in the cache under the normalized query, and every fresh cache
entry has confidence above `0.1`. -/
theorem retrieval_predict_parts (li : LocalIndex) (wf : WebFetch)
    (st : RetState) (q : String) :
    ((retrieval_predict li wf st q).1.conf > 0.1 →
      lookupCache (retrieval_predict li wf st q).2.1.cache (trimStr (lowerStr q))
        = some (retrieval_predict li wf st q).1) ∧
    (∀ k r, lookupCache st.cache k = none →
      lookupCache (retrieval_predict li wf st q).2.1.cache k = some r →
        r.conf > 0.1) := by
  cases hcl : lookupCache st.cache (trimStr (lowerStr q)) with
  | some r0 =>
    have hout : retrieval_predict li wf st q = (r0, st, []) := by
      simp only [retrieval_predict, hcl]
    rw [hout]
    constructor
    · intro _
      exact hcl
    · intro k r hk hr
      have hr' : lookupCache st.cache k = some r := hr
      rw [hk] at hr'
      cases hr'
  | none =>
    cases li with
    | none =>
      have hout : retrieval_predict none wf st q
          = webTier wf st (trimStr (lowerStr q)) [] := by
        simp only [retrieval_predict, hcl]
      rw [hout]
      exact webTier_parts wf st (trimStr (lowerStr q)) []
    | some searchFn =>
      cases hs : searchFn q with
      | error e =>
        have hout : retrieval_predict (some searchFn) wf st q
            = webTier wf st (trimStr (lowerStr q)) [.search] := by
          simp only [retrieval_predict, hcl, hs]
        rw [hout]
        exact webTier_parts wf st (trimStr (lowerStr q)) [.search]
      | ok pair =>
        obtain ⟨doc, score⟩ := pair
        by_cases hsc : score > 0.4
        · have hout : retrieval_predict (some searchFn) wf st q
              = (⟨doc, score, "Local KB (Similarity: " ++ fmt2 score ++ ")"⟩,
                 ⟨(trimStr (lowerStr q),
                    (⟨doc, score, "Local KB (Similarity: " ++ fmt2 score ++ ")"⟩
                      : PredResult)) :: st.cache⟩,
                 [.search]) := by
            simp only [retrieval_predict, hcl, hs]
            rw [if_pos hsc]
          rw [hout]
          constructor
          · intro _
            simp [lookupCache]
          · intro k r hk hr
            rw [lookupCache_cons] at hr
            by_cases hkn : trimStr (lowerStr q) = k
            · rw [if_pos hkn] at hr
              cases hr
              show (0.1 : ℚ) < score
              calc (0.1 : ℚ) < 0.4 := by norm_num
                _ < score := hsc
            · rw [if_neg hkn, hk] at hr
              cases hr
        · have hout : retrieval_predict (some searchFn) wf st q
              = webTier wf st (trimStr (lowerStr q)) [.search] := by
            simp only [retrieval_predict, hcl, hs]
            rw [if_neg hsc]
          rw [hout]
          exact webTier_parts wf st (trimStr (lowerStr q)) [.search]

/-- C7 fails as stated: a query whose resolution fails everywhere (empty
knowledge base, exhausted web tier, confidence `0`) is not cached, so
resolving the same normalized query a second time invokes the web provider
tier again instead of answering from the cache. -/
theorem C7_counterexample :
    (retrieval_predict none
        (fun _ => ⟨"", 0, "Web retrieval failed (all APIs exhausted)"⟩)
        ⟨[]⟩ "q").2.1.cache = [] ∧
      (retrieval_predict none
        (fun _ => ⟨"", 0, "Web retrieval failed (all APIs exhausted)"⟩)
        (retrieval_predict none
          (fun _ => ⟨"", 0, "Web retrieval failed (all APIs exhausted)"⟩)
          ⟨[]⟩ "q").2.1 "q").2.2 = [RCall.web] := by
  refine ⟨by simp [retrieval_predict, webTier, lookupCache]; norm_num, ?_⟩
  simp [retrieval_predict, webTier, lookupCache]
  norm_num
  rfl

/-- A cache hit returns the cached tuple unchanged, touches no state, and
makes no search or provider call. -/
theorem retrieval_predict_cache_hit (li : LocalIndex) (wf : WebFetch)
    (post : RetState) (q2 : String) (r : PredResult)
    (h : lookupCache post.cache (trimStr (lowerStr q2)) = some r) :
    retrieval_predict li wf post q2 = (r, post, []) := by
  simp only [retrieval_predict, h]

/-- C7 amended.  Whenever the first resolution of a query returns confidence
above `0.1` (so it is cached), resolving any query with the same normalized
text a second time returns the identical tuple straight from the cache,
invoking neither the similarity search nor any provider; and cache entries
are only ever written with confidence above `0.1`. -/
theorem C7_cache_idempotence (li : LocalIndex) (wf : WebFetch) (st : RetState)
    (q q2 : String)
    (hq2 : trimStr (lowerStr q2) = trimStr (lowerStr q))
    (hconf : (retrieval_predict li wf st q).1.conf > 0.1) :
    lookupCache (retrieval_predict li wf st q).2.1.cache (trimStr (lowerStr q))
        = some (retrieval_predict li wf st q).1 ∧
      retrieval_predict li wf (retrieval_predict li wf st q).2.1 q2
        = ((retrieval_predict li wf st q).1,
           (retrieval_predict li wf st q).2.1, []) ∧
      (∀ k r, lookupCache st.cache k = none →
        lookupCache (retrieval_predict li wf st q).2.1.cache k = some r →
          r.conf > 0.1) := by
  obtain ⟨hA, hC⟩ := retrieval_predict_parts li wf st q
  have hA' := hA hconf
  refine ⟨hA', ?_, hC⟩
  exact retrieval_predict_cache_hit li wf _ q2 _ (by rw [hq2]; exact hA')

/-- Witness for the amended C7: an empty knowledge base, a provider
answering with confidence `0.85`, and the same query asked twice. -/
theorem C7_witness :
    lookupCache (retrieval_predict none
        (fun _ => ⟨"ans", 0.85, "Web Retrieval (DuckDuckGo IA)"⟩)
        ⟨[]⟩ "What is Python?").2.1.cache (trimStr (lowerStr "What is Python?"))
      = some (retrieval_predict none
        (fun _ => ⟨"ans", 0.85, "Web Retrieval (DuckDuckGo IA)"⟩)
        ⟨[]⟩ "What is Python?").1 ∧
      retrieval_predict none
        (fun _ => ⟨"ans", 0.85, "Web Retrieval (DuckDuckGo IA)"⟩)
        (retrieval_predict none
          (fun _ => ⟨"ans", 0.85, "Web Retrieval (DuckDuckGo IA)"⟩)
          ⟨[]⟩ "What is Python?").2.1 "What is Python?"
        = ((retrieval_predict none
            (fun _ => ⟨"ans", 0.85, "Web Retrieval (DuckDuckGo IA)"⟩)
            ⟨[]⟩ "What is Python?").1,
           (retrieval_predict none
            (fun _ => ⟨"ans", 0.85, "Web Retrieval (DuckDuckGo IA)"⟩)
            ⟨[]⟩ "What is Python?").2.1, []) ∧
      (∀ k r, lookupCache (⟨[]⟩ : RetState).cache k = none →
        lookupCache (retrieval_predict none
          (fun _ => ⟨"ans", 0.85, "Web Retrieval (DuckDuckGo IA)"⟩)
          ⟨[]⟩ "What is Python?").2.1.cache k = some r →
          r.conf > 0.1) :=
  C7_cache_idempotence none
    (fun _ => ⟨"ans", 0.85, "Web Retrieval (DuckDuckGo IA)"⟩)
    ⟨[]⟩ "What is Python?" "What is Python?" rfl
    (by simp [retrieval_predict, webTier, lookupCache]; norm_num)

/-- Weight of strategy `A` relative to strategy `B`. -/
def ratio (st : SelectorState) (A B : Strategy) : ℚ :=
  st.weights A / st.weights B

/-- A success feedback for `A` strictly raises `A`'s weight relative to any
other strategy `B`. -/
theorem ratio_succ_step {st : SelectorState} (h : posWeights st)
    {A B : Strategy} (hAB : A ≠ B) :
    ratio st A B < ratio (update_from_feedback st A true) A B := by
  have hT := bumpedSum_pos h A true
  have hA := h A
  have hB := h B
  have hA' : bumpedW st A true A = st.weights A * 1.1 := by simp [bumpedW]
  have hB' : bumpedW st A true B = st.weights B := by simp [bumpedW, hAB.symm]
  simp only [ratio, update_from_feedback, hA', hB']
  have key : st.weights A * 1.1 / (strategyOrder.map (bumpedW st A true)).sum
      / (st.weights B / (strategyOrder.map (bumpedW st A true)).sum)
        = st.weights A / st.weights B * 1.1 := by
    field_simp
  rw [key]
  have hr : 0 < st.weights A / st.weights B := div_pos hA hB
  nlinarith

/-- A failure feedback for `B` strictly raises `A`'s weight relative to `B`. -/
theorem ratio_fail_step {st : SelectorState} (h : posWeights st)
    {A B : Strategy} (hAB : A ≠ B) :
    ratio st A B < ratio (update_from_feedback st B false) A B := by
  have hT := bumpedSum_pos h B false
  have hA := h A
  have hB := h B
  have hA' : bumpedW st B false A = st.weights A := by simp [bumpedW, hAB]
  have hB' : bumpedW st B false B = st.weights B * 0.9 := by simp [bumpedW]
  simp only [ratio, update_from_feedback, hA', hB']
  have key : st.weights A / (strategyOrder.map (bumpedW st B false)).sum
      / (st.weights B * 0.9 / (strategyOrder.map (bumpedW st B false)).sum)
        = st.weights A / st.weights B * (10 / 9) := by
    field_simp
    ring
  rw [key]
  have hr : 0 < st.weights A / st.weights B := div_pos hA hB
  nlinarith

/-- C8.  Along any feedback sequence made only of successes for `A` and
failures for `B`, the ratio of `A`'s weight to `B`'s strictly increases at
every step. -/
theorem C8_relative_reinforcement (A B : Strategy) (hAB : A ≠ B)
    (fs : List (Strategy × Bool))
    (hfs : ∀ p ∈ fs, p = (A, true) ∨ p = (B, false))
    (n : ℕ) (hn : n < fs.length) :
    ratio (applyFeedbacks initState (fs.take n)) A B
      < ratio (applyFeedbacks initState (fs.take (n + 1))) A B := by
  have hpos : posWeights (applyFeedbacks initState (fs.take n)) :=
    posWeights_applyFeedbacks posWeights_init _
  have htake : fs.take (n + 1) = fs.take n ++ [fs[n]] := by
    rw [← List.take_concat_get fs n hn, List.concat_eq_append]
  rw [htake, applyFeedbacks_append]
  have hstep : applyFeedbacks (applyFeedbacks initState (fs.take n)) [fs[n]]
        = update_from_feedback (applyFeedbacks initState (fs.take n))
            (fs[n]).1 (fs[n]).2 := rfl
  rw [hstep]
  rcases hfs fs[n] (List.getElem_mem hn) with hp | hp <;> rw [hp]
  · exact ratio_succ_step hpos hAB
  · exact ratio_fail_step hpos hAB

/-- Witness for C8: one success for Rule-Based raises its weight relative to
Retrieval. -/
theorem C8_witness :
    ratio (applyFeedbacks initState
        ([((Strategy.ruleBased : Strategy), true)].take 0))
        Strategy.ruleBased Strategy.retrieval
      < ratio (applyFeedbacks initState
          ([((Strategy.ruleBased : Strategy), true)].take 1))
          Strategy.ruleBased Strategy.retrieval :=
  C8_relative_reinforcement Strategy.ruleBased Strategy.retrieval (by decide)
    [(Strategy.ruleBased, true)]
    (fun p hp => by
      simp only [List.mem_singleton] at hp
      exact Or.inl hp)
    0 (by norm_num)

/-- The state after `n` consecutive failure feedbacks for Transformer. -/
def failSeq (n : ℕ) : SelectorState :=
  applyFeedbacks initState (List.replicate n (Strategy.transformer, false))

/-- Closed form of the weights after `n + 1` consecutive failures for
Transformer: with `p = (9/10)^(n+1)`, Transformer holds `p / (p + 3)` and
each other strategy `1 / (p + 3)`. -/
theorem failSeq_formula : ∀ n : ℕ, ∀ s : Strategy,
    (failSeq (n + 1)).weights s =
      if s = Strategy.transformer then
        (9/10 : ℚ)^(n+1) / ((9/10 : ℚ)^(n+1) + 3)
      else 1 / ((9/10 : ℚ)^(n+1) + 3) := by
  intro n
  induction n with
  | zero =>
    intro s
    show (update_from_feedback initState Strategy.transformer false).weights s = _
    simp only [update_from_feedback, bumpedW, initState, strategyOrder,
      List.map_cons, List.map_nil, List.sum_cons, List.sum_nil, add_zero]
    cases s <;>
      · simp
        norm_num
  | succ n ih =>
    intro s
    have hrepl : List.replicate (n + 1 + 1) ((Strategy.transformer : Strategy), false)
        = List.replicate (n + 1) ((Strategy.transformer : Strategy), false)
            ++ [(Strategy.transformer, false)] :=
      List.replicate_succ' _ _
    have hstep : failSeq (n + 1 + 1)
        = update_from_feedback (failSeq (n + 1)) Strategy.transformer false := by
      unfold failSeq
      rw [hrepl, applyFeedbacks_append]
      rfl
    rw [hstep]
    have hT := ih Strategy.transformer
    have hRB := ih Strategy.ruleBased
    have hRet := ih Strategy.retrieval
    have hML := ih Strategy.classicalML
    rw [if_pos rfl] at hT
    rw [if_neg (by simp)] at hRB
    rw [if_neg (by simp)] at hRet
    rw [if_neg (by simp)] at hML
    have hpow : (9/10 : ℚ)^(n+1+1) = (9/10 : ℚ)^(n+1) * (9/10) := pow_succ _ _
    have hppos : 0 < (9/10 : ℚ)^(n+1) := pow_pos (by norm_num) _
    have hd' : ((9/10 : ℚ)^(n+1) + 3) ≠ 0 := by positivity
    have hd2 : ((9/10 : ℚ)^(n+1) * (9/10) + 3) ≠ 0 := by positivity
    cases s <;>
      · simp only [update_from_feedback, bumpedW, strategyOrder, List.map_cons,
          List.map_nil, List.sum_cons, List.sum_nil, add_zero]
        simp [hT, hRB, hRet, hML, hpow]
        field_simp
        ring

/-- C9 fails as stated: no positive floor bounds every strategy weight after
every feedback call; `n` consecutive failures drive Transformer's weight to
`(9/10)^n / ((9/10)^n + 3)`, which drops below any positive bound. -/
theorem C9_counterexample :
    ¬ ∃ floor : ℚ, 0 < floor ∧
      ∀ (fs : List (Strategy × Bool)) (p : Strategy × Bool) (s : Strategy),
        floor ≤ (applyFeedbacks initState (fs ++ [p])).weights s := by
  rintro ⟨fl, hfl, hall⟩
  obtain ⟨n, hn⟩ := exists_pow_lt_of_lt_one hfl (by norm_num : (9:ℚ)/10 < 1)
  have hw := hall (List.replicate n (Strategy.transformer, false))
    (Strategy.transformer, false) Strategy.transformer
  rw [← List.replicate_succ' _ _] at hw
  have hw' : fl ≤ (9/10 : ℚ)^(n+1) / ((9/10 : ℚ)^(n+1) + 3) := by
    have hf := failSeq_formula n Strategy.transformer
    rw [if_pos rfl] at hf
    rw [← hf]
    exact hw
  have hppos : 0 < (9/10 : ℚ)^(n+1) := pow_pos (by norm_num) _
  have h2 : (9/10 : ℚ)^(n+1) / ((9/10 : ℚ)^(n+1) + 3) ≤ (9/10 : ℚ)^(n+1) := by
    rw [div_le_iff₀ (by linarith)]
    nlinarith
  have h1 : (9/10 : ℚ)^(n+1) ≤ (9/10 : ℚ)^n :=
    pow_le_pow_of_le_one (by norm_num) (by norm_num) (Nat.le_succ n)
  linarith

/-- C9 amended.  No clamping floor exists, but every weight stays strictly
positive after every feedback sequence, so the renormalization sum never
degenerates to zero. -/
theorem C9_weights_positive (fs : List (Strategy × Bool)) (s : Strategy) :
    0 < (applyFeedbacks initState fs).weights s :=
  posWeights_applyFeedbacks posWeights_init fs s

end MetaSpec
